import Mathlib

/-!
Verification development for the iwannasun web client (`app.js`).

Shallow embedding conventions:
* JS numbers that matter to the claims are modelled as `Int`; a JS number that
  may be `NaN` (an invalid `Date` value / `getTime()` result) is `Option Int`
  with `none` playing the role of `NaN` / Invalid Date.
* Timestamp parsing (`new Date(isoString)`) is abstracted as an oracle
  `parse : String → Option Int` (`none` = Invalid Date), passed explicitly to
  every function that parses.
* Row objects are mutated in place by the code (`r._tUtc = d; r._tMs = ...`);
  this is modelled by functions returning the updated row.
* `sessionStorage` and `JSON.parse` are modelled as oracles returning
  `Except Unit _` so that thrown exceptions are visible.
-/

/-- A timeline row as received from the `/day` API, together with the two
memoization fields `_tUtc` / `_tMs` that `tUtc` attaches.  `tUtcCache` models
`_tUtc` (a `Date`, possibly Invalid, hence `Option (Option Int)`); `tMsCache`
models `_tMs` (a number, possibly `NaN`, hence `Option (Option Int)`). -/
structure Row where
  time_utc : Option String := none
  time_local : Option String := none
  day_index : Option Int := none
  elevation : Option Int := none
  is_daylight : Option Bool := none
  tUtcCache : Option (Option Int) := none
  tMsCache : Option (Option Int) := none
deriving DecidableEq

/-- JS `a || b` on two possibly-absent strings: an absent or empty (falsy)
`a` falls through to `b`.  Models `r.time_utc || r.time_local`. -/
def jsOrStr (a b : Option String) : Option String :=
  match a with
  | some s => if s = "" then b else some s
  | none => b

/-- Result of one call to `tUtc` (or `tMs`): the produced value, the row after
the call (the code mutates the row to memoize), and whether a fresh parse
(`new Date(src)`) happened during the call. -/
structure TUtcRes where
  date : Option Int
  row : Row
  parsed : Bool
deriving DecidableEq

/-- `tUtc(r)`: return the memoized `_tUtc` if present, otherwise parse
`r.time_utc || r.time_local` once and attach both `_tUtc` and `_tMs`. -/
def tUtcRun (parse : String → Option Int) (r : Row) : TUtcRes :=
  match r.tUtcCache with
  | some d => { date := d, row := r, parsed := false }
  | none =>
    let d : Option Int :=
      match jsOrStr r.time_utc r.time_local with
      | none => none
      | some s => parse s
    { date := d, row := { r with tUtcCache := some d, tMsCache := some d }, parsed := true }

/-- The row after `tUtc(r)` has run (the memoizing mutation). -/
def annotate (parse : String → Option Int) (r : Row) : Row :=
  (tUtcRun parse r).row

/-- The instant value `tUtc(r)` yields (`none` = Invalid Date). -/
def tUtcVal (parse : String → Option Int) (r : Row) : Option Int :=
  (tUtcRun parse r).date

/-- `tMs(r)`: the memoized `_tMs` if it is a number (`NaN` included), else
`tUtc(r)?.getTime() ?? NaN`. -/
def tMsRun (parse : String → Option Int) (r : Row) : TUtcRes :=
  match r.tMsCache with
  | some m => { date := m, row := r, parsed := false }
  | none => tUtcRun parse r

/-- The epoch-ms value `tMs(r)` yields (`none` = `NaN`). -/
def tMsF (parse : String → Option Int) (r : Row) : Option Int :=
  (tMsRun parse r).date

/-- `isDaylightRow`: an explicit boolean `is_daylight` decides; otherwise
`Number(r.elevation || 0) > 0`. -/
def isDaylightRow (r : Row) : Bool :=
  match r.is_daylight with
  | some b => b
  | none => decide (0 < r.elevation.getD 0)

/-- `daylightWindow(dayRows, padMinutes)`: scan forward for the first daylight
row, backward for the last; `null` when none; otherwise the pair of padded
instants (each `Option Int`, `none` when the underlying `Date` is Invalid). -/
def daylightWindow (parse : String → Option Int) (dayRows : List Row)
    (padMinutes : Int) : Option (Option Int × Option Int) :=
  match dayRows.find? isDaylightRow, dayRows.reverse.find? isDaylightRow with
  | some rf, some rl =>
      some ((tUtcVal parse rf).map (fun t => t - padMinutes * 60000),
            (tUtcVal parse rl).map (fun t => t + padMinutes * 60000))
  | _, _ => none

/-- JS comparator check `tMs(a) - tMs(b) > 0` where either side may be `NaN`:
any comparison involving `NaN` is false. -/
def cmpPos (x y : Option Int) : Bool :=
  match x, y with
  | some a, some b => decide (0 < a - b)
  | _, _ => false

/-- `x ≤ y` on possibly-`NaN` keys, vacuously true when either is `NaN`;
used to state sortedness hypotheses decidably. -/
def leKey (x y : Option Int) : Bool :=
  match x, y with
  | some a, some b => decide (a ≤ b)
  | _, _ => true

/-- Stable insertion step of the timeline sort: `x` is placed after every
element `y` it strictly exceeds (`cmpPos`), and before the first other one. -/
def insertRow (k : Row → Option Int) (x : Row) : List Row → List Row
  | [] => [x]
  | y :: ys => if cmpPos (k x) (k y) then y :: insertRow k x ys else x :: y :: ys

/-- The stable sort `days[k].sort((a, b) => tMs(a) - tMs(b))` keyed by `k`. -/
def sortRows (k : Row → Option Int) (l : List Row) : List Row :=
  l.foldr (insertRow k) []

/-- `Number(r.day_index || 0)`: the day bucket key. -/
def dayIdx (r : Row) : Int :=
  r.day_index.getD 0

/-- `(days[di] ||= []).push(r)` on an association list of buckets. -/
def pushRow (m : List (Int × List Row)) (di : Int) (r : Row) : List (Int × List Row) :=
  match m with
  | [] => [(di, [r])]
  | (k, rs) :: rest =>
    if k = di then (k, rs ++ [r]) :: rest else (k, rs) :: pushRow rest di r

/-- The grouping loop of `prepData`: push every row into its day bucket. -/
def groupRows (rows : List Row) : List (Int × List Row) :=
  rows.foldl (fun m r => pushRow m (dayIdx r) r) []

/-- Bucket lookup `days[di]`. -/
def lookupG (m : List (Int × List Row)) (di : Int) : Option (List Row) :=
  match m with
  | [] => none
  | (k, rs) :: rest => if k = di then some rs else lookupG rest di

/-- `prepData` on a timeline: annotate every row (the `tUtc(r)` call of the
grouping loop), group by `Number(r.day_index || 0)`, then sort each bucket
ascending by `tMs`. -/
def prepBuckets (parse : String → Option Int) (timeline : List Row) :
    List (Int × List Row) :=
  (groupRows (timeline.map (annotate parse))).map
    (fun kv => (kv.1, sortRows (tMsF parse) kv.2))

/-- A JS value reaching `esc` (strings, numbers, booleans, null, undefined). -/
inductive JsVal where
  | nullV
  | undef
  | str (s : String)
  | num (n : Int)
  | boolV (b : Bool)
deriving DecidableEq

/-- JS `String(v)` coercion for the modelled values. -/
def jsValToString : JsVal → String
  | .nullV => "null"
  | .undef => "undefined"
  | .str s => s
  | .num n => toString n
  | .boolV b => if b then "true" else "false"

/-- The five escaped characters of `esc`'s regexp `/[&<>"']/`. -/
def quotChar : Char := Char.ofNat 34

/-- The single-quote character of `esc`'s regexp. -/
def aposChar : Char := Char.ofNat 39

/-- One character's replacement under `esc`'s regexp map. -/
def escCharL (c : Char) : List Char :=
  if c = '&' then ['&', 'a', 'm', 'p', ';']
  else if c = '<' then ['&', 'l', 't', ';']
  else if c = '>' then ['&', 'g', 't', ';']
  else if c = quotChar then ['&', 'q', 'u', 'o', 't', ';']
  else if c = aposChar then ['&', '#', '3', '9', ';']
  else [c]

/-- `String.prototype.replace` with the `esc` map over every character. -/
def escL : List Char → List Char
  | [] => []
  | c :: rest => escCharL c ++ escL rest

/-- `esc(s)`: `String(s ?? '').replace(/[&<>"']/g, ...)`. -/
def esc (v : JsVal) : String :=
  let coerced : JsVal :=
    match v with
    | .nullV => .str ""
    | .undef => .str ""
    | x => x
  String.mk (escL (jsValToString coerced).toList)

/-- Inverse of the entity substitution, used to state that `esc` replaces each
special character by its entity without losing information. -/
def unescL (l : List Char) : List Char :=
  match l with
  | [] => []
  | c :: rest =>
    if c = '&' then
      if rest.take 4 = ['a', 'm', 'p', ';'] then '&' :: unescL (rest.drop 4)
      else if rest.take 3 = ['l', 't', ';'] then '<' :: unescL (rest.drop 3)
      else if rest.take 3 = ['g', 't', ';'] then '>' :: unescL (rest.drop 3)
      else if rest.take 5 = ['q', 'u', 'o', 't', ';'] then quotChar :: unescL (rest.drop 5)
      else if rest.take 4 = ['#', '3', '9', ';'] then aposChar :: unescL (rest.drop 4)
      else c :: unescL rest
    else c :: unescL rest
termination_by l.length
decreasing_by all_goals (simp only [List.length_cons, List.length_drop]; omega)

/-- The `/day` response: the timeline rows and `meta.tz_name`. -/
structure DayResponse where
  timeline : List Row := []
  tz_name : Option String := none
deriving DecidableEq

/-- `state.tzName = data?.meta?.tz_name || null` (empty string is falsy). -/
def tzOf (d : DayResponse) : Option String :=
  match d.tz_name with
  | some s => if s = "" then none else some s
  | none => none

/-- What `JSON.parse` of a cache entry yields, seen through the truthiness
checks of `loadCached`: `ts` as stored (absent when the field is missing) and
`data` (absent when missing or falsy). -/
structure CacheEntryJs where
  ts : Option Int := none
  dataF : Option DayResponse := none
deriving DecidableEq

/-- `loadCached`: `sessionStorage.getItem` result (which may throw) and the
`JSON.parse` oracle (error = throw, `ok none` = a parsed value that is falsy
or has no usable fields) are passed explicitly; every failure is caught and
becomes a `none` cache miss.  Default `maxAgeMs` in the code is 5 minutes. -/
def loadCached (raw : Except Unit (Option String))
    (parseEntry : String → Except Unit (Option CacheEntryJs))
    (now : Int) (maxAgeMs : Int := 5 * 60 * 1000) : Option DayResponse :=
  match raw with
  | .error _ => none
  | .ok none => none
  | .ok (some rawStr) =>
    if rawStr = "" then none
    else
      match parseEntry rawStr with
      | .error _ => none
      | .ok none => none
      | .ok (some e) =>
        match e.ts with
        | none => none
        | some ts =>
          if ts = 0 then none
          else
            match e.dataF with
            | none => none
            | some d => if maxAgeMs < now - ts then none else some d

/-- The two model variants `fetchDay` can query (`model=ray` / `model=local`). -/
inductive ApiModel where
  | ray
  | localModel
deriving DecidableEq

/-- Outcome of one `await fetch(url, { signal })` together with what the
subsequent body reads would yield: a network-level rejection, an
`AbortError` rejection, or a response carrying its HTTP status, the
`detail` field its JSON body would provide (`none` when missing or when
`res.json()` would throw on that read), the `Retry-After` header, and the
parsed body for the success path (`none` when `res.json()` would throw). -/
inductive FetchSt where
  | netErr
  | abortErr
  | resp (status : Nat) (detail : Option String) (retryAfter : Option String)
      (body : Option DayResponse)
deriving DecidableEq

/-- The mutable application state touched by `fetchDay`, plus the error box
(`#errBox`) content, which the code drives through `showError`/`clearError`. -/
structure AppState where
  lat : Option Int := none
  lon : Option Int := none
  data : Option DayResponse := none
  days : Option (List (Int × List Row)) := none
  tzName : Option String := none
  isBusy : Bool := false
  rateLimitUntil : Int := 0
  errBox : Option String := none
deriving DecidableEq

/-- The environment one `fetchDay` run observes: the frozen clock, the two
possible network interactions, the results the two cache lookups would give,
and the timestamp-parse oracle. -/
structure FetchEnv where
  now : Int
  rayRes : FetchSt
  localRes : FetchSt
  cachedRay : Option DayResponse := none
  cachedLocal : Option DayResponse := none
  parse : String → Option Int

/-- Observable effects of one `fetchDay` run: the final state, the network
requests issued in order, the `setBusy` calls in order, whether the cache was
consulted, the seconds argument of a `startRateLimitCooldown` call, the
`saveCached` call, and whether `render()` ran. -/
structure FetchOutcome where
  state : AppState
  requests : List ApiModel
  busyCalls : List Bool
  cacheChecked : Bool
  cooldownStartedS : Option Int
  saved : Option (ApiModel × DayResponse)
  rendered : Bool

/-- `clamp(n, a, b) = Math.max(a, Math.min(b, n))`. -/
def jsClamp (n a b : Int) : Int :=
  max a (min b n)

/-- `res.ok`: status in the 2xx range. -/
def httpOk (status : Nat) : Bool :=
  decide (200 ≤ status ∧ status ≤ 299)

/-- `msg.toLowerCase()` (ASCII, which covers the `'rate limited'` probe). -/
def jsToLower (s : String) : String :=
  String.mk (s.toList.map Char.toLower)

/-- Does `l` start with `pat`? -/
def listStartsWith : List Char → List Char → Bool
  | [], _ => true
  | _ :: _, [] => false
  | p :: ps, c :: cs => p = c && listStartsWith ps cs

/-- Does `l` contain `pat` as a contiguous run? -/
def listHasInfix (pat : List Char) : List Char → Bool
  | [] => pat.isEmpty
  | c :: cs => listStartsWith pat (c :: cs) || listHasInfix pat cs

/-- `msg.toLowerCase().includes('rate limited')`. -/
def mentionsRateLimit (msg : String) : Bool :=
  listHasInfix ("rate limited".toList) (jsToLower msg).toList

/-- `/^\d+$/.test(s)`. -/
def allDigits (s : String) : Bool :=
  !s.isEmpty && s.toList.all Char.isDigit

/-- `Number(s)` for a digit-only string. -/
def natOfDigits (s : String) : Int :=
  Int.ofNat (s.toNat?.getD 0)

/-- `RL_DEFAULT_COOLDOWN_S`. -/
def RL_DEFAULT_COOLDOWN_S : Int := 10

/-- The message `applyRateLimitUi` shows while the cooldown is active. -/
def rateLimitedMessage (secs : Int) (suffix : String) : String :=
  s!"Rate limited by the API. Please wait {secs}s and try again." ++ suffix

/-- `applyRateLimitUi(detailMsg)`: when the persisted deadline is in the
future, show the remaining-seconds message (with the optional detail
suffix). -/
def applyRateLimitUi (now : Int) (detailMsg : String) (s : AppState) : AppState :=
  let remMs := max 0 (s.rateLimitUntil - now)
  if 0 < remMs then
    let secs := (remMs + 999) / 1000
    let suffix := if detailMsg = "" then "" else " " ++ detailMsg
    { s with errBox := some (rateLimitedMessage secs suffix) }
  else s

/-- `setBusy(b)`: store the flag and re-apply the rate-limit UI (which may
overwrite the error box while a cooldown is active). -/
def setBusy (now : Int) (b : Bool) (s : AppState) : AppState :=
  applyRateLimitUi now "" { s with isBusy := b }

/-- `startRateLimitCooldown(seconds, detailMsg)`: clamp to `[5, 900]` seconds,
persist `now + s*1000` as the deadline, and show the cooldown message. -/
def startRateLimitCooldown (now : Int) (seconds : Int) (detailMsg : String)
    (s : AppState) : AppState :=
  let sec := jsClamp seconds 5 (15 * 60)
  applyRateLimitUi now detailMsg { s with rateLimitUntil := now + sec * 1000 }

/-- `rateLimitRemainingMs()` against the frozen clock. -/
def rateLimitRemainingMs (now : Int) (s : AppState) : Int :=
  max 0 (s.rateLimitUntil - now)

/-- The cooldown seconds the 503 branch computes: honor a digit-only
`Retry-After` clamped to `[5, 900]`, else `RL_DEFAULT_COOLDOWN_S`. -/
def retryAfterCooldown (ra : Option String) : Int :=
  match ra with
  | some r => if allDigits r then jsClamp (natOfDigits r) 5 (15 * 60) else RL_DEFAULT_COOLDOWN_S
  | none => RL_DEFAULT_COOLDOWN_S

/-- Applying a successful `/day` payload to the state:
`state.data = data; state.tzName = data?.meta?.tz_name || null; prepData(state.data)`
(`prepData` annotates the timeline rows in place and rebuilds `state.days`). -/
def applyDayData (parse : String → Option Int) (d : DayResponse) (s : AppState) : AppState :=
  { s with
    data := some { d with timeline := d.timeline.map (annotate parse) },
    tzName := tzOf d,
    days := some (prepBuckets parse d.timeline) }

/-- The tail of `fetchDay` shared by the primary and fallback responses: the
`if (!res.ok)` error surfacing and the success path, inside `try`/`finally`
(`setBusy(false)` runs on every exit, thrown errors included). -/
def fetchDayFinish (env : FetchEnv) (usedModel : ApiModel) (requests : List ApiModel)
    (res : FetchSt) (s : AppState) : FetchOutcome :=
  match res with
  | .netErr =>
    { state := setBusy env.now false { s with errBox := some "Network error (could not reach API)." },
      requests := requests, busyCalls := [true, false], cacheChecked := true,
      cooldownStartedS := none, saved := none, rendered := false }
  | .abortErr =>
    { state := setBusy env.now false s,
      requests := requests, busyCalls := [true, false], cacheChecked := true,
      cooldownStartedS := none, saved := none, rendered := false }
  | .resp status detail _ body =>
    if httpOk status then
      match body with
      | none =>
        -- `await res.json()` threw; the catch block shows the generic message.
        { state := setBusy env.now false { s with errBox := some "Network error (could not reach API)." },
          requests := requests, busyCalls := [true, false], cacheChecked := true,
          cooldownStartedS := none, saved := none, rendered := false }
      | some d =>
        let s' := applyDayData env.parse d s
        { state := setBusy env.now false s',
          requests := requests, busyCalls := [true, false], cacheChecked := true,
          cooldownStartedS := none,
          saved := some (usedModel, { d with timeline := d.timeline.map (annotate env.parse) }),
          rendered := true }
    else
      let msg :=
        match detail with
        | some dmsg => if dmsg = "" then s!"API error {status}" else dmsg
        | none => s!"API error {status}"
      { state := setBusy env.now false { s with errBox := some msg },
        requests := requests, busyCalls := [true, false], cacheChecked := true,
        cooldownStartedS := none, saved := none, rendered := false }

/-- `fetchDay(force)`.  The steps, in source order: the cooldown gate, the
busy flag, the location check, the (unforced) cache consultation, the primary
request, the 503 rate-limit branch, the fallback request, the shared
error/success tail, and the `finally` that clears the busy flag. -/
def fetchDay (env : FetchEnv) (force : Bool) (s0 : AppState) : FetchOutcome :=
  if 0 < rateLimitRemainingMs env.now s0 then
    { state := applyRateLimitUi env.now "" s0,
      requests := [], busyCalls := [], cacheChecked := false,
      cooldownStartedS := none, saved := none, rendered := false }
  else
    let s1 := setBusy env.now true s0
    let s2 := { s1 with errBox := none }
    -- `const lat = state.lat` — `setBusy`/`clearError` do not touch lat/lon,
    -- so the null check reads the values the call started with.
    if s0.lat.isNone || s0.lon.isNone then
      { state := setBusy env.now false { s2 with errBox := some "No location set" },
        requests := [], busyCalls := [true, false], cacheChecked := false,
        cooldownStartedS := none, saved := none, rendered := false }
    else
      let cached : Option DayResponse :=
        if force then none
        else match env.cachedRay with
          | some c => some c
          | none => env.cachedLocal
      match cached with
      | some c =>
        let s3 := applyDayData env.parse c s2
        { state := setBusy env.now false s3,
          requests := [], busyCalls := [true, false], cacheChecked := !force,
          cooldownStartedS := none, saved := none, rendered := true }
      | none =>
        match env.rayRes with
        | .netErr =>
          { state := setBusy env.now false { s2 with errBox := some "Network error (could not reach API)." },
            requests := [.ray], busyCalls := [true, false], cacheChecked := !force,
            cooldownStartedS := none, saved := none, rendered := false }
        | .abortErr =>
          { state := setBusy env.now false s2,
            requests := [.ray], busyCalls := [true, false], cacheChecked := !force,
            cooldownStartedS := none, saved := none, rendered := false }
        | .resp status detail retryAfter body =>
          if httpOk status then
            let out := fetchDayFinish env .ray [.ray] (.resp status detail retryAfter body) s2
            { out with cacheChecked := !force }
          else
            let msg := (detail.getD "")
            if status = 503 && mentionsRateLimit msg then
              let cooldown := retryAfterCooldown retryAfter
              let s3 := startRateLimitCooldown env.now cooldown
                (if msg = "" then "" else "(" ++ msg ++ ")") s2
              { state := setBusy env.now false s3,
                requests := [.ray], busyCalls := [true, false], cacheChecked := !force,
                cooldownStartedS := some cooldown, saved := none, rendered := false }
            else
              let out := fetchDayFinish env .localModel [.ray, .localModel] env.localRes s2
              { out with cacheChecked := !force }

/-- A concrete timestamp-parse oracle for evaluating the definitions. -/
def parseEx : String → Option Int
  | "t0" => some 0
  | "t1" => some 60000
  | "t2" => some 120000
  | "L" => some 42
  | _ => none

/-- Daylight row with instant 0. -/
def rowD0 : Row := { time_utc := some "t0", elevation := some 3 }

/-- Daylight row with instant 60000. -/
def rowD1 : Row := { time_utc := some "t1", elevation := some 5 }

/-- Night row with instant 120000. -/
def rowN : Row := { time_utc := some "t2", elevation := some (-4) }

/-- An unsorted row list: the first daylight row has the larger instant. -/
def ceRows : List Row := [rowD1, rowD0]

/-- A row list sorted ascending by instant. -/
def okRows : List Row := [rowD0, rowD1, rowN]

/-- Day-0 daylight row with instant 60000. -/
def rowW0 : Row := { time_utc := some "t1", day_index := some 0, elevation := some 5 }

/-- Day-0 daylight row with instant 0. -/
def rowW1 : Row := { time_utc := some "t0", day_index := some 0, elevation := some 3 }

/-- Day-1 night row with instant 120000. -/
def rowW2 : Row := { time_utc := some "t2", day_index := some 1, elevation := some (-2) }

/-- A timeline whose day-0 rows arrive out of order. -/
def tlEx : List Row := [rowW0, rowW1, rowW2]

/-- The day-0 bucket `prepData` produces for `tlEx`. -/
def bEx : List Row := [annotate parseEx rowW1, annotate parseEx rowW0]

/-- A row whose `time_utc` is present but empty while `time_local` parses. -/
def rowEmptyUtc : Row := { time_utc := some "", time_local := some "L" }

/-- A concrete `/day` payload. -/
def dayEx : DayResponse := { timeline := [rowW1], tz_name := some "Europe/Amsterdam" }

/-- A concrete cache-entry parse oracle: `"E"` parses to a well-formed entry. -/
def parseEntryEx : String → Except Unit (Option CacheEntryJs) :=
  fun s => if s = "E" then .ok (some { ts := some 1000, dataF := some dayEx }) else .error ()

/-- A state with a location set and no active cooldown. -/
def stateEx : AppState := { lat := some 52, lon := some 4 }

/-- An environment whose primary response is a rate-limiting 503 with a
numeric `Retry-After` hint. -/
def envRateLimited : FetchEnv :=
  { now := 1000000,
    rayRes := .resp 503 (some "Rate limited: slow down") (some "60") none,
    localRes := .netErr,
    parse := parseEx }

/-- An environment with a successful primary response. -/
def envSuccess : FetchEnv :=
  { now := 1000000,
    rayRes := .resp 200 none none (some dayEx),
    localRes := .netErr,
    parse := parseEx }

/-- A state with a location set and a cooldown deadline in the future. -/
def stateCooling : AppState := { lat := some 52, lon := some 4, rateLimitUntil := 2000000 }

/-! ### Helper lemmas about the timeline sort -/

theorem insertRow_perm (k : Row → Option Int) (x : Row) :
    ∀ l : List Row, (insertRow k x l).Perm (x :: l)
  | [] => List.Perm.refl _
  | y :: ys => by
    unfold insertRow
    split
    · exact ((insertRow_perm k x ys).cons y).trans (List.Perm.swap x y ys)
    · exact List.Perm.refl _

theorem sortRows_perm (k : Row → Option Int) : ∀ l : List Row, (sortRows k l).Perm l
  | [] => List.Perm.refl _
  | x :: xs =>
    (insertRow_perm k x (sortRows k xs)).trans ((sortRows_perm k xs).cons x)

theorem mem_insertRow {k : Row → Option Int} {x z : Row} {l : List Row} :
    z ∈ insertRow k x l ↔ z = x ∨ z ∈ l := by
  rw [(insertRow_perm k x l).mem_iff, List.mem_cons]

theorem insertRow_pairwise (k : Row → Option Int) (x : Row) :
    ∀ l : List Row, (k x).isSome = true → (∀ y ∈ l, (k y).isSome = true) →
      (l.Pairwise fun a b => ∀ u v, k a = some u → k b = some v → u ≤ v) →
      (insertRow k x l).Pairwise fun a b => ∀ u v, k a = some u → k b = some v → u ≤ v
  | [], _, _, _ => by simp [insertRow]
  | y :: ys, hx, hl, hp => by
    rw [List.pairwise_cons] at hp
    obtain ⟨a, ha⟩ := Option.isSome_iff_exists.mp hx
    obtain ⟨b, hb⟩ := Option.isSome_iff_exists.mp (hl y (List.mem_cons_self y ys))
    unfold insertRow
    by_cases hgt : cmpPos (k x) (k y) = true
    · rw [if_pos hgt]
      rw [ha, hb] at hgt
      simp only [cmpPos, decide_eq_true_eq] at hgt
      refine List.pairwise_cons.mpr ⟨?_, insertRow_pairwise k x ys hx
        (fun z hz => hl z (List.mem_cons_of_mem y hz)) hp.2⟩
      intro z hz
      rcases mem_insertRow.mp hz with rfl | hz'
      · intro u v hu hv
        rw [hb] at hu
        rw [ha] at hv
        obtain rfl := Option.some.inj hu
        obtain rfl := Option.some.inj hv
        omega
      · exact hp.1 z hz'
    · rw [if_neg hgt]
      rw [ha, hb] at hgt
      simp only [cmpPos, decide_eq_true_eq] at hgt
      refine List.pairwise_cons.mpr ⟨?_, List.pairwise_cons.mpr hp⟩
      intro z hz
      rcases List.mem_cons.mp hz with rfl | hz'
      · intro u v hu hv
        rw [ha] at hu
        rw [hb] at hv
        obtain rfl := Option.some.inj hu
        obtain rfl := Option.some.inj hv
        omega
      · intro u v hu hv
        obtain ⟨c, hc⟩ := Option.isSome_iff_exists.mp (hl z (List.mem_cons_of_mem y hz'))
        have hbc : b ≤ c := hp.1 z hz' b c hb hc
        rw [ha] at hu
        rw [hc] at hv
        obtain rfl := Option.some.inj hu
        obtain rfl := Option.some.inj hv
        omega

theorem sortRows_pairwise (k : Row → Option Int) :
    ∀ l : List Row, (∀ y ∈ l, (k y).isSome = true) →
      (sortRows k l).Pairwise fun a b => ∀ u v, k a = some u → k b = some v → u ≤ v
  | [], _ => by simp [sortRows]
  | x :: xs, hl => by
    have hx : (k x).isSome = true := hl x (List.mem_cons_self x xs)
    have hxs : ∀ y ∈ xs, (k y).isSome = true :=
      fun y hy => hl y (List.mem_cons_of_mem x hy)
    have hmem : ∀ y ∈ sortRows k xs, (k y).isSome = true :=
      fun y hy => hxs y ((sortRows_perm k xs).mem_iff.mp hy)
    exact insertRow_pairwise k x (sortRows k xs) hx hmem (sortRows_pairwise k xs hxs)

/-! ### Helper lemmas about the day-bucket grouping -/

theorem lookupG_pushRow_self (di : Int) (r : Row) :
    ∀ m : List (Int × List Row),
      lookupG (pushRow m di r) di = some ((lookupG m di).getD [] ++ [r])
  | [] => by simp [pushRow, lookupG]
  | (k, rs) :: rest => by
    by_cases h : k = di
    · subst h
      simp [pushRow, lookupG]
    · simp [pushRow, lookupG, h, lookupG_pushRow_self di r rest]

theorem lookupG_pushRow_other (di dj : Int) (r : Row) (h : dj ≠ di) :
    ∀ m : List (Int × List Row), lookupG (pushRow m di r) dj = lookupG m dj
  | [] => by
    have hne : ¬ di = dj := fun he => h he.symm
    simp [pushRow, lookupG, hne]
  | (k, rs) :: rest => by
    by_cases hk : k = di
    · subst hk
      have hne : ¬ k = dj := fun he => h (he ▸ rfl)
      simp [pushRow, lookupG, hne]
    · by_cases hj : k = dj
      · subst hj
        simp [pushRow, lookupG, hk, lookupG]
      · simp [pushRow, lookupG, hk, hj, lookupG_pushRow_other di dj r h rest]

theorem lookupG_foldl_push (di : Int) :
    ∀ (rows : List Row) (m : List (Int × List Row)),
      (lookupG (rows.foldl (fun acc r => pushRow acc (dayIdx r) r) m) di).getD [] =
        (lookupG m di).getD [] ++ rows.filter (fun r => decide (dayIdx r = di))
  | [], m => by simp
  | r :: rest, m => by
    rw [List.foldl_cons, lookupG_foldl_push di rest]
    by_cases h : dayIdx r = di
    · subst h
      rw [lookupG_pushRow_self]
      simp [List.filter_cons]
    · rw [lookupG_pushRow_other (dayIdx r) di r (fun he => h he.symm)]
      simp [List.filter_cons, h]

theorem lookupG_map_sort (parse : String → Option Int) (di : Int) :
    ∀ g : List (Int × List Row),
      lookupG (g.map fun kv => (kv.1, sortRows (tMsF parse) kv.2)) di =
        (lookupG g di).map (sortRows (tMsF parse))
  | [] => by simp [lookupG]
  | (k, rs) :: rest => by
    by_cases h : k = di
    · subst h
      simp [lookupG]
    · simp [lookupG, h, lookupG_map_sort parse di rest]

/-! ### A `find?` result is minimal among matches in a pairwise-sorted list -/

theorem find?_first {p : Row → Bool} {R : Row → Row → Prop} (hrefl : ∀ c, R c c) :
    ∀ (l : List Row) (a : Row), l.Pairwise R → l.find? p = some a →
      ∀ b ∈ l, p b = true → R a b
  | [], a, _, hf => by simp at hf
  | c :: t, a, hp, hf => by
    rw [List.pairwise_cons] at hp
    by_cases hpc : p c = true
    · rw [List.find?_cons_of_pos _ hpc] at hf
      obtain rfl := Option.some.inj hf
      intro b hb _
      rcases List.mem_cons.mp hb with rfl | hb'
      · exact hrefl b
      · exact hp.1 b hb'
    · rw [List.find?_cons_of_neg _ (by simpa using hpc)] at hf
      intro b hb hpb
      rcases List.mem_cons.mp hb with rfl | hb'
      · exact absurd hpb hpc
      · exact find?_first hrefl t a hp.2 hf b hb' hpb

/-! ### C1 — `daylightWindow` -/

/-- C1 counterexample: the claim quantifies over *every* list of rows, but on
the unsorted list `ceRows = [rowD1, rowD0]` (instants 60000 then 0, both
daylight) the forward scan picks `rowD1`, so the returned `start` is 60000
even for `padMinutes = 0`, while the daylight row `rowD0` has instant 0 —
the claimed bound `start ≤ every daylight row's instant` (after reversing
the zero padding) fails. -/
theorem daylightWindow_unsorted_violation :
    daylightWindow parseEx ceRows 0 = some (some 60000, some 0)
    ∧ rowD0 ∈ ceRows
    ∧ isDaylightRow rowD0 = true
    ∧ tUtcVal parseEx rowD0 = some 0
    ∧ ¬ ((60000 : Int) - 0 * 60000 + 0 * 60000 ≤ 0) := by
  refine ⟨by decide, by decide, by decide, by decide, by decide⟩

/-- C1 (amended: for row lists sorted non-decreasing by parsed instant, as
the day buckets that feed `daylightWindow` are): the result is `null` iff no
row is daylight (an explicit `is_daylight` boolean decides, else strictly
positive elevation); otherwise `start`/`end` are the instant of the first /
last daylight row minus / plus `padMinutes`, and once the padding is
reversed `start` is at most every daylight row's (valid) instant, which is
at most `end`. -/
theorem daylightWindow_sorted_spec (parse : String → Option Int)
    (rows : List Row) (pad : Int)
    (hsorted : rows.Pairwise fun a b => leKey (tUtcVal parse a) (tUtcVal parse b) = true) :
    (daylightWindow parse rows pad = none ↔ ∀ r ∈ rows, isDaylightRow r = false)
    ∧ ∀ ds de, daylightWindow parse rows pad = some (ds, de) →
        ((∃ rf, rf ∈ rows ∧ isDaylightRow rf = true
            ∧ ds = (tUtcVal parse rf).map (fun t => t - pad * 60000)
            ∧ ∀ r ∈ rows, isDaylightRow r = true →
                ∀ x fv, tUtcVal parse r = some x → tUtcVal parse rf = some fv → fv ≤ x)
         ∧ (∃ rl, rl ∈ rows ∧ isDaylightRow rl = true
            ∧ de = (tUtcVal parse rl).map (fun t => t + pad * 60000)
            ∧ ∀ r ∈ rows, isDaylightRow r = true →
                ∀ x lv, tUtcVal parse r = some x → tUtcVal parse rl = some lv → x ≤ lv)) := by
  have hrefl : ∀ c : Row, leKey (tUtcVal parse c) (tUtcVal parse c) = true := by
    intro c
    unfold leKey
    split
    · next a b ha hb =>
      obtain rfl := Option.some.inj (ha.symm.trans hb)
      simp
    · rfl
  constructor
  · constructor
    · intro hw
      unfold daylightWindow at hw
      rcases hf : rows.find? isDaylightRow with _ | rf
      · exact fun r hr => Bool.eq_false_iff.mpr
          (by simpa using List.find?_eq_none.mp hf r hr)
      · rcases hr : rows.reverse.find? isDaylightRow with _ | rl
        · intro r hmem
          exact Bool.eq_false_iff.mpr
            (by simpa using List.find?_eq_none.mp hr r (List.mem_reverse.mpr hmem))
        · rw [hf, hr] at hw
          simp at hw
    · intro hall
      unfold daylightWindow
      have hf : rows.find? isDaylightRow = none :=
        List.find?_eq_none.mpr (fun r hr => by simp [hall r hr])
      rw [hf]
  · intro ds de hw
    unfold daylightWindow at hw
    rcases hf : rows.find? isDaylightRow with _ | rf
    · rw [hf] at hw
      simp at hw
    · rcases hr : rows.reverse.find? isDaylightRow with _ | rl
      · rw [hf, hr] at hw
        simp at hw
      · rw [hf, hr] at hw
        obtain ⟨hds, hde⟩ := Prod.mk.injEq _ _ _ _ ▸ Option.some.inj hw
        constructor
        · refine ⟨rf, List.mem_of_find?_eq_some hf, List.find?_some hf, hds.symm, ?_⟩
          intro r hmem hday x fv hx hfv
          have hle := find?_first hrefl rows rf hsorted hf r hmem hday
          rw [hfv, hx] at hle
          simpa [leKey] using hle
        · have hsorted' : rows.reverse.Pairwise
              fun a b => leKey (tUtcVal parse b) (tUtcVal parse a) = true :=
            List.pairwise_reverse.mpr hsorted
          refine ⟨rl, List.mem_reverse.mp (List.mem_of_find?_eq_some hr),
            List.find?_some hr, hde.symm, ?_⟩
          intro r hmem hday x lv hx hlv
          have hle := find?_first (R := fun a b => leKey (tUtcVal parse b) (tUtcVal parse a) = true)
            hrefl rows.reverse rl hsorted' hr r (List.mem_reverse.mpr hmem) hday
          simp only at hle
          rw [hx, hlv] at hle
          simpa [leKey] using hle

/-- C1 witness: on the sorted list `okRows` with two daylight rows, the
null-iff-no-daylight equivalence holds at a concrete input. -/
theorem daylightWindow_sorted_spec_witness :
    daylightWindow parseEx okRows 30 = none ↔ ∀ r ∈ okRows, isDaylightRow r = false :=
  (daylightWindow_sorted_spec parseEx okRows 30 (by decide)).1

/-! ### C2 — `prepData` bucket invariant -/

/-- C2: for a timeline whose (annotated) rows all parse, every day bucket
`prepData` builds is non-decreasing by the parsed epoch-ms instant `tMs`, and
it holds exactly the timeline rows whose `Number(r.day_index || 0)` equals the
bucket key (grouping by coerced `day_index`, default 0). -/
theorem prepData_bucket_sorted_grouped (parse : String → Option Int)
    (tl : List Row) (di : Int) (b : List Row)
    (hparse : ∀ r ∈ tl, (tMsF parse (annotate parse r)).isSome = true)
    (hb : lookupG (prepBuckets parse tl) di = some b) :
    (b.Pairwise fun a c => ∀ u v, tMsF parse a = some u → tMsF parse c = some v → u ≤ v)
    ∧ b.Perm ((tl.map (annotate parse)).filter (fun r => decide (dayIdx r = di)))
    ∧ ∀ r ∈ b, dayIdx r = di := by
  unfold prepBuckets at hb
  rw [lookupG_map_sort] at hb
  obtain ⟨b0, hb0, rfl⟩ := Option.map_eq_some'.mp hb
  have hfil : b0 = (tl.map (annotate parse)).filter (fun r => decide (dayIdx r = di)) := by
    have := lookupG_foldl_push di (tl.map (annotate parse)) []
    rw [groupRows] at hb0
    rw [hb0] at this
    simpa [lookupG] using this
  subst hfil
  have hsome : ∀ r ∈ (tl.map (annotate parse)).filter (fun r => decide (dayIdx r = di)),
      (tMsF parse r).isSome = true := by
    intro r hr
    obtain ⟨r0, hr0, rfl⟩ := List.mem_map.mp (List.mem_of_mem_filter hr)
    exact hparse r0 hr0
  refine ⟨sortRows_pairwise (tMsF parse) _ hsome, sortRows_perm (tMsF parse) _, ?_⟩
  intro r hr
  have hr' := (sortRows_perm (tMsF parse) _).mem_iff.mp hr
  have := List.of_mem_filter hr'
  simpa using this

/-- C2 witness: the day-0 bucket for the concrete timeline `tlEx` is a
permutation of the annotated day-0 rows. -/
theorem prepData_bucket_sorted_grouped_witness :
    bEx.Perm ((tlEx.map (annotate parseEx)).filter (fun r => decide (dayIdx r = 0))) :=
  (prepData_bucket_sorted_grouped parseEx tlEx 0 bEx (by decide) (by decide)).2.1

/-! ### C9 — `prepData` idempotence -/

/-- The memoizing mutation of `tUtc` is idempotent: once a row carries the
cached instant, another `tUtc` call leaves it unchanged. -/
theorem annotate_annotate (parse : String → Option Int) (r : Row) :
    annotate parse (annotate parse r) = annotate parse r := by
  unfold annotate
  cases h : r.tUtcCache with
  | some d => simp [tUtcRun, h]
  | none => simp [tUtcRun, h]

/-- C9: re-running `prepData` on the same timeline after a previous run has
already annotated its rows yields exactly the same day-index grouping and the
same ordering inside every bucket. -/
theorem prepData_idempotent (parse : String → Option Int) (tl : List Row) :
    prepBuckets parse (tl.map (annotate parse)) = prepBuckets parse tl := by
  unfold prepBuckets
  rw [List.map_map]
  have : (annotate parse ∘ annotate parse) = annotate parse := by
    funext r
    exact annotate_annotate parse r
  rw [this]

/-! ### C8 — `tUtc` parse source and memoization -/

/-- C8 counterexample: the claim says `time_local` is used *only if*
`time_utc` is absent, but `r.time_utc || r.time_local` also falls back on a
present-but-empty `time_utc`: for `rowEmptyUtc` (with `time_utc = ""` and a
parsable `time_local`) the derived instant comes from `time_local`, not from
parsing the present `time_utc` (which would be Invalid). -/
theorem tUtc_empty_string_fallback :
    rowEmptyUtc.time_utc = some ""
    ∧ parseEx "" = none
    ∧ (tUtcRun parseEx rowEmptyUtc).date = some 42
    ∧ parseEx "L" = some 42 := by
  refine ⟨rfl, rfl, by decide, rfl⟩

/-- C8 (amended: the fallback also happens when `time_utc` is present but
empty, since `||` tests JS truthiness): on a row without a cached instant,
`tUtc` parses `time_utc || time_local` exactly once, attaches the parsed
instant and its epoch-ms value to the row, and both later lookups (`tUtc`
and `tMs`) return the memoized values without re-parsing or mutating. -/
theorem tUtc_parse_once_memoized (parse : String → Option Int) (r : Row)
    (h : r.tUtcCache = none) :
    (tUtcRun parse r).parsed = true
    ∧ (tUtcRun parse r).date =
        (match jsOrStr r.time_utc r.time_local with
         | none => none
         | some s => parse s)
    ∧ (∀ s, r.time_utc = some s → s ≠ "" → (tUtcRun parse r).date = parse s)
    ∧ (r.time_utc = none →
        (tUtcRun parse r).date =
          (match r.time_local with
           | none => none
           | some s => parse s))
    ∧ (tUtcRun parse r).row.tUtcCache = some (tUtcRun parse r).date
    ∧ (tUtcRun parse r).row.tMsCache = some (tUtcRun parse r).date
    ∧ tUtcRun parse (tUtcRun parse r).row =
        { date := (tUtcRun parse r).date, row := (tUtcRun parse r).row, parsed := false }
    ∧ tMsRun parse (tUtcRun parse r).row =
        { date := (tUtcRun parse r).date, row := (tUtcRun parse r).row, parsed := false } := by
  refine ⟨?_, ?_, ?_, ?_, ?_, ?_, ?_, ?_⟩
  · simp [tUtcRun, h]
  · simp [tUtcRun, h]
  · intro s hs hne
    simp [tUtcRun, h, jsOrStr, hs, hne]
  · intro hs
    simp [tUtcRun, h, jsOrStr, hs]
  · simp [tUtcRun, h]
  · simp [tUtcRun, h]
  · simp [tUtcRun, h]
  · simp [tMsRun, tUtcRun, h]

/-- C8 witness: on `rowD0` (no cache) a second `tUtc` lookup returns the
memoized value without parsing or further mutation. -/
theorem tUtc_parse_once_memoized_witness :
    tUtcRun parseEx (tUtcRun parseEx rowD0).row =
      { date := (tUtcRun parseEx rowD0).date, row := (tUtcRun parseEx rowD0).row,
        parsed := false } :=
  (tUtc_parse_once_memoized parseEx rowD0 rfl).2.2.2.2.2.2.1

/-! ### C10 — `esc` escaping -/

/-- Every character produced by one `escCharL` step avoids the four
characters `<`, `>`, `"`, `'` entirely. -/
theorem escCharL_no_specials (c : Char) :
    ∀ z ∈ escCharL c, z ≠ '<' ∧ z ≠ '>' ∧ z ≠ quotChar ∧ z ≠ aposChar := by
  intro z hz
  unfold escCharL at hz
  by_cases h1 : c = '&'
  · rw [if_pos h1] at hz
    fin_cases hz <;> decide
  · rw [if_neg h1] at hz
    by_cases h2 : c = '<'
    · rw [if_pos h2] at hz
      fin_cases hz <;> decide
    · rw [if_neg h2] at hz
      by_cases h3 : c = '>'
      · rw [if_pos h3] at hz
        fin_cases hz <;> decide
      · rw [if_neg h3] at hz
        by_cases h4 : c = quotChar
        · rw [if_pos h4] at hz
          fin_cases hz <;> decide
        · rw [if_neg h4] at hz
          by_cases h5 : c = aposChar
          · rw [if_pos h5] at hz
            fin_cases hz <;> decide
          · rw [if_neg h5] at hz
            obtain rfl := List.mem_singleton.mp hz
            exact ⟨h2, h3, h4, h5⟩

theorem escL_no_specials :
    ∀ l : List Char, ∀ z ∈ escL l, z ≠ '<' ∧ z ≠ '>' ∧ z ≠ quotChar ∧ z ≠ aposChar
  | [], z, hz => by simp [escL] at hz
  | c :: rest, z, hz => by
    rw [escL] at hz
    rcases List.mem_append.mp hz with hz' | hz'
    · exact escCharL_no_specials c z hz'
    · exact escL_no_specials rest z hz'

/-- Decoding after escaping restores the original characters: the entity
substitution is faithful and lossless. -/
theorem unescL_escL : ∀ l : List Char, unescL (escL l) = l
  | [] => by simp [escL, unescL]
  | c :: rest => by
    rw [escL]
    unfold escCharL
    by_cases h1 : c = '&'
    · subst h1
      rw [if_pos rfl]
      show unescL ('&' :: 'a' :: 'm' :: 'p' :: ';' :: escL rest) = _
      simp only [unescL]
      simp [unescL_escL rest]
    · rw [if_neg h1]
      by_cases h2 : c = '<'
      · subst h2
        rw [if_pos rfl]
        show unescL ('&' :: 'l' :: 't' :: ';' :: escL rest) = _
        simp [unescL, unescL_escL rest]
      · rw [if_neg h2]
        by_cases h3 : c = '>'
        · subst h3
          rw [if_pos rfl]
          show unescL ('&' :: 'g' :: 't' :: ';' :: escL rest) = _
          simp [unescL, unescL_escL rest]
        · rw [if_neg h3]
          by_cases h4 : c = quotChar
          · subst h4
            rw [if_pos rfl]
            show unescL ('&' :: 'q' :: 'u' :: 'o' :: 't' :: ';' :: escL rest) = _
            simp [unescL, unescL_escL rest]
          · rw [if_neg h4]
            by_cases h5 : c = aposChar
            · subst h5
              rw [if_pos rfl]
              show unescL ('&' :: '#' :: '3' :: '9' :: ';' :: escL rest) = _
              simp [unescL, unescL_escL rest]
            · rw [if_neg h5]
              show unescL (c :: escL rest) = c :: rest
              simp [unescL, h1, unescL_escL rest]

/-- C10 counterexample: the claim says the output of `esc` contains none of
the five characters `& < > " '` literally, but the replacement entities
themselves contain `&`: `esc("&") = "&amp;"`, which literally contains the
ampersand character. -/
theorem esc_output_contains_ampersand :
    esc (.str "&") = "&amp;" ∧ '&' ∈ (esc (.str "&")).toList := by
  refine ⟨by decide, by decide⟩

/-- C10 (amended: the output is free of literal `<`, `>`, `"` and `'`, while
ampersands may remain as the leads of the five replacement entities): `esc`
maps null and undefined to the empty string, coerces any other non-string
value to its string form first, and replaces each occurrence of the five
characters by its HTML entity — losslessly, as decoding the entities restores
the input exactly. -/
theorem esc_spec :
    (∀ v : JsVal, ∀ z ∈ (esc v).toList,
        z ≠ '<' ∧ z ≠ '>' ∧ z ≠ quotChar ∧ z ≠ aposChar)
    ∧ esc .nullV = ""
    ∧ esc .undef = ""
    ∧ (∀ s, unescL (esc (.str s)).toList = s.toList)
    ∧ (∀ n : Int, esc (.num n) = esc (.str (toString n)))
    ∧ (∀ b : Bool, esc (.boolV b) = esc (.str (jsValToString (.boolV b)))) := by
  refine ⟨?_, rfl, rfl, ?_, fun n => rfl, fun b => rfl⟩
  · intro v z hz
    exact escL_no_specials _ z hz
  · intro s
    show unescL (escL s.toList) = s.toList
    exact unescL_escL s.toList

/-- C10 witness: the no-specials clause applied at a concrete character of a
concrete escaped string. -/
theorem esc_spec_witness :
    'x' ≠ '<' ∧ 'x' ≠ '>' ∧ 'x' ≠ quotChar ∧ 'x' ≠ aposChar :=
  esc_spec.1 (.str "x<y") 'x' (by decide)

/-! ### C7 — `loadCached` -/

/-- C7: `loadCached` returns `null` when the storage read throws or yields no
(or an empty) raw string, when `JSON.parse` throws or yields a falsy or
field-less value, when `ts` is missing or falsy, when `data` is missing or
falsy, and when the entry is older than `maxAgeMs`; it is a total function
(storage and parse errors are caught, never rethrown), and whenever it does
return data the entry's age `now - ts` is at most `maxAgeMs`. -/
theorem loadCached_spec (raw : Except Unit (Option String))
    (parseEntry : String → Except Unit (Option CacheEntryJs))
    (now maxAgeMs : Int) :
    (raw = .error () → loadCached raw parseEntry now maxAgeMs = none)
    ∧ (raw = .ok none → loadCached raw parseEntry now maxAgeMs = none)
    ∧ (∀ s, raw = .ok (some s) → parseEntry s = .error () →
        loadCached raw parseEntry now maxAgeMs = none)
    ∧ (∀ s, raw = .ok (some s) → parseEntry s = .ok none →
        loadCached raw parseEntry now maxAgeMs = none)
    ∧ (∀ s e, raw = .ok (some s) → parseEntry s = .ok (some e) →
        (e.ts = none ∨ e.ts = some 0 ∨ e.dataF = none) →
        loadCached raw parseEntry now maxAgeMs = none)
    ∧ (∀ s e ts, raw = .ok (some s) → parseEntry s = .ok (some e) →
        e.ts = some ts → maxAgeMs < now - ts →
        loadCached raw parseEntry now maxAgeMs = none)
    ∧ (∀ d, loadCached raw parseEntry now maxAgeMs = some d →
        ∃ s e ts, raw = .ok (some s) ∧ parseEntry s = .ok (some e)
          ∧ e.ts = some ts ∧ ts ≠ 0 ∧ e.dataF = some d ∧ now - ts ≤ maxAgeMs) := by
  refine ⟨?_, ?_, ?_, ?_, ?_, ?_, ?_⟩
  · intro h
    subst h
    rfl
  · intro h
    subst h
    rfl
  · intro s h hp
    subst h
    by_cases hs : s = ""
    · simp [loadCached, hs]
    · simp [loadCached, hs, hp]
  · intro s h hp
    subst h
    by_cases hs : s = ""
    · simp [loadCached, hs]
    · simp [loadCached, hs, hp]
  · intro s e h hp hmal
    subst h
    by_cases hs : s = ""
    · simp [loadCached, hs]
    · rcases hmal with hts | hts | hdf
      · simp [loadCached, hs, hp, hts]
      · simp [loadCached, hs, hp, hts]
      · rcases hts : e.ts with _ | tsv
        · simp [loadCached, hs, hp, hts]
        · by_cases h0 : tsv = 0
          · simp [loadCached, hs, hp, hts, h0]
          · simp [loadCached, hs, hp, hts, h0, hdf]
  · intro s e ts h hp hts hold
    subst h
    by_cases hs : s = ""
    · simp [loadCached, hs]
    · by_cases h0 : ts = 0
      · simp [loadCached, hs, hp, hts, h0]
      · rcases hdf : e.dataF with _ | d
        · simp [loadCached, hs, hp, hts, h0, hdf]
        · simp [loadCached, hs, hp, hts, h0, hdf, hold]
  · intro d hd
    rcases raw with _ | raws
    · simp [loadCached] at hd
    · rcases raws with _ | s
      · simp [loadCached] at hd
      · by_cases hs : s = ""
        · simp [loadCached, hs] at hd
        · rcases hp : parseEntry s with _ | pe
          · simp [loadCached, hs, hp] at hd
          · rcases pe with _ | e
            · simp [loadCached, hs, hp] at hd
            · rcases hts : e.ts with _ | tsv
              · simp [loadCached, hs, hp, hts] at hd
              · by_cases h0 : tsv = 0
                · simp [loadCached, hs, hp, hts, h0] at hd
                · rcases hdf : e.dataF with _ | dv
                  · simp [loadCached, hs, hp, hts, h0, hdf] at hd
                  · by_cases hage : maxAgeMs < now - tsv
                    · simp [loadCached, hs, hp, hts, h0, hdf, hage] at hd
                    · simp [loadCached, hs, hp, hts, h0, hdf, hage] at hd
                      subst hd
                      exact ⟨s, e, tsv, rfl, hp, hts, h0, hdf, by omega⟩

/-- C7 witness: a well-formed but expired entry (age 399000 ms against a
300000 ms max age) is a cache miss. -/
theorem loadCached_spec_witness :
    loadCached (.ok (some "E")) parseEntryEx 400000 300000 = none :=
  (loadCached_spec (.ok (some "E")) parseEntryEx 400000 300000).2.2.2.2.2.1
    "E" { ts := some 1000, dataF := some dayEx } 1000 rfl rfl rfl (by decide)

/-! ### Helper lemmas about `fetchDay`'s state plumbing -/

@[simp] theorem applyRateLimitUi_lat (now : Int) (dm : String) (s : AppState) :
    (applyRateLimitUi now dm s).lat = s.lat := by
  unfold applyRateLimitUi
  dsimp only
  split <;> rfl

@[simp] theorem applyRateLimitUi_lon (now : Int) (dm : String) (s : AppState) :
    (applyRateLimitUi now dm s).lon = s.lon := by
  unfold applyRateLimitUi
  dsimp only
  split <;> rfl

@[simp] theorem applyRateLimitUi_data (now : Int) (dm : String) (s : AppState) :
    (applyRateLimitUi now dm s).data = s.data := by
  unfold applyRateLimitUi
  dsimp only
  split <;> rfl

@[simp] theorem applyRateLimitUi_days (now : Int) (dm : String) (s : AppState) :
    (applyRateLimitUi now dm s).days = s.days := by
  unfold applyRateLimitUi
  dsimp only
  split <;> rfl

@[simp] theorem applyRateLimitUi_tzName (now : Int) (dm : String) (s : AppState) :
    (applyRateLimitUi now dm s).tzName = s.tzName := by
  unfold applyRateLimitUi
  dsimp only
  split <;> rfl

@[simp] theorem applyRateLimitUi_isBusy (now : Int) (dm : String) (s : AppState) :
    (applyRateLimitUi now dm s).isBusy = s.isBusy := by
  unfold applyRateLimitUi
  dsimp only
  split <;> rfl

@[simp] theorem applyRateLimitUi_rateLimitUntil (now : Int) (dm : String) (s : AppState) :
    (applyRateLimitUi now dm s).rateLimitUntil = s.rateLimitUntil := by
  unfold applyRateLimitUi
  dsimp only
  split <;> rfl

@[simp] theorem setBusy_lat (now : Int) (b : Bool) (s : AppState) :
    (setBusy now b s).lat = s.lat := by
  unfold setBusy
  simp

@[simp] theorem setBusy_lon (now : Int) (b : Bool) (s : AppState) :
    (setBusy now b s).lon = s.lon := by
  unfold setBusy
  simp

@[simp] theorem setBusy_data (now : Int) (b : Bool) (s : AppState) :
    (setBusy now b s).data = s.data := by
  unfold setBusy
  simp

@[simp] theorem setBusy_days (now : Int) (b : Bool) (s : AppState) :
    (setBusy now b s).days = s.days := by
  unfold setBusy
  simp

@[simp] theorem setBusy_tzName (now : Int) (b : Bool) (s : AppState) :
    (setBusy now b s).tzName = s.tzName := by
  unfold setBusy
  simp

@[simp] theorem setBusy_isBusy (now : Int) (b : Bool) (s : AppState) :
    (setBusy now b s).isBusy = b := by
  unfold setBusy
  simp

@[simp] theorem setBusy_rateLimitUntil (now : Int) (b : Bool) (s : AppState) :
    (setBusy now b s).rateLimitUntil = s.rateLimitUntil := by
  unfold setBusy
  simp

theorem setBusy_errBox_active (now : Int) (b : Bool) (s : AppState)
    (h : 0 < s.rateLimitUntil - now) :
    (setBusy now b s).errBox
      = some (rateLimitedMessage ((s.rateLimitUntil - now + 999) / 1000) "") := by
  unfold setBusy applyRateLimitUi
  have hmax : max 0 (s.rateLimitUntil - now) = s.rateLimitUntil - now := by omega
  have hlt : now < s.rateLimitUntil := by omega
  simp [hmax, h, hlt]

theorem startRateLimitCooldown_rateLimitUntil (now seconds : Int) (dm : String)
    (s : AppState) :
    (startRateLimitCooldown now seconds dm s).rateLimitUntil
      = now + jsClamp seconds 5 (15 * 60) * 1000 := by
  unfold startRateLimitCooldown
  simp

theorem startRateLimitCooldown_data (now seconds : Int) (dm : String) (s : AppState) :
    (startRateLimitCooldown now seconds dm s).data = s.data := by
  unfold startRateLimitCooldown
  simp

theorem fetchDayFinish_busy (env : FetchEnv) (um : ApiModel) (reqs : List ApiModel)
    (res : FetchSt) (s : AppState) :
    (fetchDayFinish env um reqs res s).busyCalls = [true, false]
    ∧ (fetchDayFinish env um reqs res s).state.isBusy = false := by
  unfold fetchDayFinish
  rcases res with _ | _ | ⟨st, detail, ra, body⟩
  · exact ⟨rfl, by simp⟩
  · exact ⟨rfl, by simp⟩
  · dsimp only
    split
    · rcases body with _ | d
      · exact ⟨rfl, by simp⟩
      · exact ⟨rfl, by simp⟩
    · exact ⟨rfl, by simp⟩

theorem fetchDay_busy_shape (env : FetchEnv) (force : Bool) (s0 : AppState) :
    ((fetchDay env force s0).busyCalls = []
      ∧ (fetchDay env force s0).state.isBusy = s0.isBusy)
    ∨ ((fetchDay env force s0).busyCalls = [true, false]
      ∧ (fetchDay env force s0).state.isBusy = false) := by
  by_cases hrl : 0 < rateLimitRemainingMs env.now s0
  · unfold fetchDay
    rw [if_pos hrl]
    exact Or.inl ⟨rfl, by simp⟩
  · refine Or.inr ?_
    unfold fetchDay
    rw [if_neg hrl]
    by_cases hll : (s0.lat.isNone || s0.lon.isNone) = true
    · rw [if_pos hll]
      exact ⟨rfl, by simp⟩
    · rw [if_neg hll]
      rcases hcc : (if force then none
          else match env.cachedRay with
            | some c => some c
            | none => env.cachedLocal) with _ | c
      · dsimp only
        rcases hray : env.rayRes with _ | _ | ⟨st, detail, ra, body⟩
        · exact ⟨rfl, by simp⟩
        · exact ⟨rfl, by simp⟩
        · dsimp only
          by_cases hok : httpOk st = true
          · rw [if_pos hok]
            exact ⟨(fetchDayFinish_busy _ _ _ _ _).1, (fetchDayFinish_busy _ _ _ _ _).2⟩
          · rw [if_neg hok]
            by_cases hrlm : (decide (st = 503) && mentionsRateLimit (detail.getD "")) = true
            · rw [if_pos hrlm]
              exact ⟨rfl, by simp⟩
            · rw [if_neg hrlm]
              exact ⟨(fetchDayFinish_busy _ _ _ _ _).1, (fetchDayFinish_busy _ _ _ _ _).2⟩
      · exact ⟨rfl, by simp⟩

/-! ### C4 — the cooldown gate of `fetchDay` -/

/-- C4: while the persisted cooldown deadline lies in the future
(`rateLimitRemainingMs() > 0`), `fetchDay` — forced or not — issues no
network request, never consults the cache, performs no busy-flag, data,
bucket, timezone, or deadline mutation, saves nothing and renders nothing:
it only re-applies the cooldown UI and returns. -/
theorem fetchDay_cooling_rejects (env : FetchEnv) (force : Bool) (s0 : AppState)
    (h : 0 < rateLimitRemainingMs env.now s0) :
    (fetchDay env force s0).requests = []
    ∧ (fetchDay env force s0).cacheChecked = false
    ∧ (fetchDay env force s0).busyCalls = []
    ∧ (fetchDay env force s0).saved = none
    ∧ (fetchDay env force s0).rendered = false
    ∧ (fetchDay env force s0).state.data = s0.data
    ∧ (fetchDay env force s0).state.days = s0.days
    ∧ (fetchDay env force s0).state.tzName = s0.tzName
    ∧ (fetchDay env force s0).state.isBusy = s0.isBusy
    ∧ (fetchDay env force s0).state.rateLimitUntil = s0.rateLimitUntil := by
  unfold fetchDay
  rw [if_pos h]
  refine ⟨rfl, rfl, rfl, rfl, rfl, by simp, by simp, by simp, by simp, by simp⟩

/-- C4 witness: with the deadline 1000 s in the future, a forced refresh is
rejected with no request and no cache consultation. -/
theorem fetchDay_cooling_rejects_witness :
    (fetchDay envSuccess true stateCooling).requests = []
    ∧ (fetchDay envSuccess true stateCooling).cacheChecked = false :=
  ⟨(fetchDay_cooling_rejects envSuccess true stateCooling (by decide)).1,
   (fetchDay_cooling_rejects envSuccess true stateCooling (by decide)).2.1⟩

/-! ### C3 — the rate-limit branch of `fetchDay` -/

theorem retryAfterCooldown_bounds (ra : Option String) :
    5 ≤ retryAfterCooldown ra ∧ retryAfterCooldown ra ≤ 900 := by
  rcases ra with _ | r
  · simp only [retryAfterCooldown, RL_DEFAULT_COOLDOWN_S]
    omega
  · simp only [retryAfterCooldown, RL_DEFAULT_COOLDOWN_S, jsClamp]
    split <;> omega

theorem jsClamp_eq_of_bounds (n a b : Int) (h1 : a ≤ n) (h2 : n ≤ b) :
    jsClamp n a b = n := by
  unfold jsClamp
  omega

/-- C3: when the primary (`ray`) response is an HTTP 503 whose `detail`
mentions rate limiting, `fetchDay` issues exactly the one primary request
(no fallback), starts the cooldown — whose length honors a digit-only
`Retry-After` hint clamped to `[5 s, 900 s]` and is the 10 s default
otherwise — persists `now + cooldown·1000` as the deadline, surfaces the
rate-limited message, and stops: nothing is saved, rendered, or applied to
`state.data`, and the busy flag ends cleared. -/
theorem fetchDay_rateLimit_spec (env : FetchEnv) (force : Bool) (s0 : AppState)
    (detail ra : Option String) (body : Option DayResponse)
    (hcool : rateLimitRemainingMs env.now s0 = 0)
    (hlat : s0.lat.isSome = true) (hlon : s0.lon.isSome = true)
    (hcache : force = true ∨ (env.cachedRay = none ∧ env.cachedLocal = none))
    (hray : env.rayRes = .resp 503 detail ra body)
    (hmsg : mentionsRateLimit (detail.getD "") = true) :
    (fetchDay env force s0).requests = [ApiModel.ray]
    ∧ (fetchDay env force s0).cooldownStartedS = some (retryAfterCooldown ra)
    ∧ (fetchDay env force s0).state.rateLimitUntil
        = env.now + retryAfterCooldown ra * 1000
    ∧ (∀ r, ra = some r → allDigits r = true →
        retryAfterCooldown ra = jsClamp (natOfDigits r) 5 (15 * 60))
    ∧ (∀ r, ra = some r → allDigits r = false →
        retryAfterCooldown ra = RL_DEFAULT_COOLDOWN_S)
    ∧ (ra = none → retryAfterCooldown ra = RL_DEFAULT_COOLDOWN_S)
    ∧ (5 ≤ retryAfterCooldown ra ∧ retryAfterCooldown ra ≤ 900)
    ∧ (fetchDay env force s0).state.errBox
        = some (rateLimitedMessage (retryAfterCooldown ra) "")
    ∧ (fetchDay env force s0).saved = none
    ∧ (fetchDay env force s0).rendered = false
    ∧ (fetchDay env force s0).state.data = s0.data
    ∧ (fetchDay env force s0).state.isBusy = false := by
  obtain ⟨la, hla⟩ := Option.isSome_iff_exists.mp hlat
  obtain ⟨lo, hlo⟩ := Option.isSome_iff_exists.mp hlon
  have hc0 : ¬ 0 < rateLimitRemainingMs env.now s0 := by
    rw [hcool]
    omega
  have hll : ¬ (s0.lat.isNone || s0.lon.isNone) = true := by
    simp [hla, hlo]
  have hcc : (if force then (none : Option DayResponse)
      else match env.cachedRay with
        | some c => some c
        | none => env.cachedLocal) = none := by
    rcases hcache with hf | ⟨hcr, hcl⟩
    · simp [hf]
    · rcases force with _ | _
      · simp [hcr, hcl]
      · simp
  have hfd : fetchDay env force s0 =
      { state := setBusy env.now false
          (startRateLimitCooldown env.now (retryAfterCooldown ra)
            (if detail.getD "" = "" then "" else "(" ++ detail.getD "" ++ ")")
            { (setBusy env.now true s0) with errBox := none }),
        requests := [ApiModel.ray], busyCalls := [true, false], cacheChecked := !force,
        cooldownStartedS := some (retryAfterCooldown ra), saved := none,
        rendered := false } := by
    unfold fetchDay
    rw [if_neg hc0, if_neg hll, hcc, hray]
    dsimp only
    rw [if_neg (by decide : ¬ httpOk 503 = true)]
    rw [if_pos (by simp [hmsg])]
  have hbnd := retryAfterCooldown_bounds ra
  have hclamp : jsClamp (retryAfterCooldown ra) 5 (15 * 60) = retryAfterCooldown ra :=
    jsClamp_eq_of_bounds _ _ _ hbnd.1 (by omega)
  refine ⟨by rw [hfd], by rw [hfd], ?_, ?_, ?_, ?_, hbnd, ?_, by rw [hfd], by rw [hfd],
    ?_, ?_⟩
  · rw [hfd]
    simp only [setBusy_rateLimitUntil, startRateLimitCooldown_rateLimitUntil, hclamp]
  · intro r hr hd
    subst hr
    simp [retryAfterCooldown, hd]
  · intro r hr hd
    subst hr
    simp [retryAfterCooldown, hd]
  · intro hr
    subst hr
    simp [retryAfterCooldown]
  · rw [hfd]
    have hactive : 0 < (startRateLimitCooldown env.now (retryAfterCooldown ra)
        (if detail.getD "" = "" then "" else "(" ++ detail.getD "" ++ ")")
        { (setBusy env.now true s0) with errBox := none }).rateLimitUntil - env.now := by
      rw [startRateLimitCooldown_rateLimitUntil, hclamp]
      omega
    rw [setBusy_errBox_active _ _ _ hactive]
    rw [startRateLimitCooldown_rateLimitUntil, hclamp]
    congr 1
    congr 1
    omega
  · rw [hfd]
    simp only [setBusy_data, startRateLimitCooldown_data]
  · rw [hfd]
    simp

/-- C3 witness: a 503 with detail "Rate limited: slow down" and
`Retry-After: 60` issues only the primary request and starts a 60 s
cooldown. -/
theorem fetchDay_rateLimit_spec_witness :
    (fetchDay envRateLimited true stateEx).requests = [ApiModel.ray]
    ∧ (fetchDay envRateLimited true stateEx).cooldownStartedS
        = some (retryAfterCooldown (some "60")) :=
  ⟨(fetchDay_rateLimit_spec envRateLimited true stateEx
      (some "Rate limited: slow down") (some "60") none
      (by decide) (by decide) (by decide) (Or.inl rfl) rfl (by decide)).1,
   (fetchDay_rateLimit_spec envRateLimited true stateEx
      (some "Rate limited: slow down") (some "60") none
      (by decide) (by decide) (by decide) (Or.inl rfl) rfl (by decide)).2.1⟩

/-! ### C6 — the busy flag is cleared on every exit path -/

/-- C6: every `fetchDay` run that sets the busy flag performs exactly the
`setBusy(true)` / `setBusy(false)` pair — the `finally` clause clears the
flag on the missing-location, cache-hit, rate-limit, fallback-failure,
success, network-failure, abort, and thrown-error paths alike — and the
final state is not busy. -/
theorem fetchDay_busy_cleared (env : FetchEnv) (force : Bool) (s0 : AppState)
    (h : true ∈ (fetchDay env force s0).busyCalls) :
    (fetchDay env force s0).busyCalls = [true, false]
    ∧ (fetchDay env force s0).state.isBusy = false := by
  rcases fetchDay_busy_shape env force s0 with ⟨hb, _⟩ | hs
  · rw [hb] at h
    simp at h
  · exact hs

/-- C6 witness: a forced successful fetch sets the busy flag and ends with
it cleared. -/
theorem fetchDay_busy_cleared_witness :
    (fetchDay envSuccess true stateEx).busyCalls = [true, false]
    ∧ (fetchDay envSuccess true stateEx).state.isBusy = false :=
  fetchDay_busy_cleared envSuccess true stateEx (by decide)

